import Mathlib

/-!
Verification development for the VideoTrans repository.

Shallow embedding of:
- `src/utils/subtitle_formats.py` (class `SubtitleFormatter`): timestamp
  rendering and the SRT/VTT/ASS serializers;
- `src/utils/transcribe.py` (`TranscriptionService.translate_transcript`);
- `src/utils/cleanup.py` (`FileCleanupService`);
- `src/app.py` (`process_background`, the background job orchestration).

Python floats are modelled as exact rationals (`ℚ`); Python `//` and `%`
(floor division / floor modulus) are modelled by `Int.floor` and `pymod`.
Python `int(x)` truncates toward zero, but in the code below it is only ever
applied to non-negative quantities or to already-floored quotients, where
truncation coincides with `Int.floor`, so `Int.floor` is used throughout.
-/

namespace VideoTrans

set_option maxRecDepth 10000

/-- A transcript segment, the dict `{'start': …, 'end': …, 'text': …}` used
throughout `transcribe.py` and `subtitle_formats.py`.  The Python key `end`
is a Lean keyword, hence the field name `end_`. -/
structure Segment where
  start : ℚ
  end_ : ℚ
  text : String
deriving DecidableEq, Repr

/-- Python's floor modulus `a % b` for rationals (`b > 0` in all uses below):
`a - b * ⌊a / b⌋`. -/
def pymod (a b : ℚ) : ℚ := a - b * ⌊a / b⌋

/-- Python's `str.strip()` with no argument: remove leading and trailing
whitespace characters from both ends. -/
def pyStrip (s : String) : String :=
  String.mk (((s.data.dropWhile Char.isWhitespace).reverse.dropWhile
    Char.isWhitespace).reverse)

/-- Python's `str.upper()`: uppercase every character. -/
def strUpper (s : String) : String := String.mk (s.data.map Char.toUpper)

/-- Python's `str.startswith(pre)`. -/
def pyStartsWith (s pre : String) : Bool := pre.data.isPrefixOf s.data

/-- Python's `needle in haystack` for strings: substring containment. -/
def pyIn (needle haystack : String) : Bool := decide (needle.data <:+: haystack.data)

/-- Python's `'\n'.join(l)`: elements separated by a single newline. -/
def joinNL : List String → String
  | [] => ""
  | [a] => a
  | a :: rest => a ++ "\n" ++ joinNL rest

/-- Zero-pad the decimal rendering of a natural number to at least `w`
characters, as Python's `f"{n:0wd}"` does for `n ≥ 0`. -/
def padNat (w : ℕ) (n : ℕ) : String :=
  let s := Nat.repr n
  if s.length < w then String.mk (List.replicate (w - s.length) '0') ++ s else s

/-- Python's `f"{n:0wd}"` for an integer `n`: a negative number keeps its
sign and the zeros pad the remaining width. -/
def intPad (w : ℕ) (n : ℤ) : String :=
  if n < 0 then "-" ++ padNat (w - 1) n.natAbs else padNat w n.toNat

/-- `SubtitleFormatter.format_timestamp_srt` (subtitle_formats.py lines 9-18):
`HH:MM:SS,mmm` with `{:02d}`/`{:03d}` padding. -/
def format_timestamp_srt (t : ℚ) : String :=
  let hours : ℤ := ⌊t / 3600⌋
  let minutes : ℤ := ⌊pymod t 3600 / 60⌋
  let secondsQ : ℚ := pymod t 60
  let milliseconds : ℤ := ⌊pymod secondsQ 1 * 1000⌋
  let seconds : ℤ := ⌊secondsQ⌋
  intPad 2 hours ++ ":" ++ intPad 2 minutes ++ ":" ++ intPad 2 seconds ++ "," ++
    intPad 3 milliseconds

/-- `SubtitleFormatter.format_timestamp_vtt` (lines 20-29): identical to the
SRT form but with a dot before the milliseconds. -/
def format_timestamp_vtt (t : ℚ) : String :=
  let hours : ℤ := ⌊t / 3600⌋
  let minutes : ℤ := ⌊pymod t 3600 / 60⌋
  let secondsQ : ℚ := pymod t 60
  let milliseconds : ℤ := ⌊pymod secondsQ 1 * 1000⌋
  let seconds : ℤ := ⌊secondsQ⌋
  intPad 2 hours ++ ":" ++ intPad 2 minutes ++ ":" ++ intPad 2 seconds ++ "." ++
    intPad 3 milliseconds

/-- `SubtitleFormatter.format_timestamp_ass` (lines 31-40): `H:MM:SS.cc`,
hour field rendered by `f"{hours}"` with no padding. -/
def format_timestamp_ass (t : ℚ) : String :=
  let hours : ℤ := ⌊t / 3600⌋
  let minutes : ℤ := ⌊pymod t 3600 / 60⌋
  let secondsQ : ℚ := pymod t 60
  let centiseconds : ℤ := ⌊pymod secondsQ 1 * 100⌋
  let seconds : ℤ := ⌊secondsQ⌋
  toString hours ++ ":" ++ intPad 2 minutes ++ ":" ++ intPad 2 seconds ++ "." ++
    intPad 2 centiseconds

/-- One segment's contribution to the `srt_content` list built by
`SubtitleFormatter.to_srt` (lines 42-61): index line, timing line, trimmed
text, and the empty separator line. -/
def srtBlock (i : ℕ) (s : Segment) : List String :=
  [Nat.repr i,
   format_timestamp_srt s.start ++ " --> " ++ format_timestamp_srt s.end_,
   pyStrip s.text,
   ""]

/-- `SubtitleFormatter.to_srt`: `enumerate(segments, 1)` drives the 1-based
index; the accumulated lines are joined with `'\n'`. -/
def to_srt (segments : List Segment) : String :=
  joinNL ((List.enumFrom 1 segments).map (fun p => srtBlock p.1 p.2)).flatten

/-- One segment's contribution to the `vtt_content` list built by
`SubtitleFormatter.to_vtt` (lines 63-81). -/
def vttBlock (s : Segment) : List String :=
  [format_timestamp_vtt s.start ++ " --> " ++ format_timestamp_vtt s.end_,
   pyStrip s.text,
   ""]

/-- `SubtitleFormatter.to_vtt`: starts from `["WEBVTT", ""]` and joins with
`'\n'`. -/
def to_vtt (segments : List Segment) : String :=
  joinNL (["WEBVTT", ""] ++ (segments.map vttBlock).flatten)

/-- The ASS header literal of `SubtitleFormatter.to_ass` (lines 87-97) after
the `.strip()` applied at line 99. -/
def ass_header : String :=
  "[Script Info]\nTitle: Generated Subtitles\nScriptType: v4.00+\n\n[V4+ Styles]\nFormat: Name, Fontname, Fontsize, PrimaryColour, SecondaryColour, OutlineColour, BackColour, Bold, Italic, Underline, StrikeOut, ScaleX, ScaleY, Spacing, Angle, BorderStyle, Outline, Shadow, Alignment, MarginL, MarginR, MarginV, Encoding\nStyle: Default,Arial,16,&H00FFFFFF,&H000000FF,&H00000000,&H80000000,0,0,0,0,100,100,0,0,1,2,0,2,10,10,10,1\n\n[Events]\nFormat: Layer, Start, End, Style, Name, MarginL, MarginR, MarginV, Effect, Text"

/-- `SubtitleFormatter.to_ass` (lines 83-116): header then one `Dialogue`
line per segment, newlines in the text escaped to the two characters `\N`. -/
def to_ass (segments : List Segment) : String :=
  joinNL (ass_header ::
    segments.map (fun s =>
      "Dialogue: 0," ++ format_timestamp_ass s.start ++ "," ++
        format_timestamp_ass s.end_ ++ ",Default,,0,0,0,," ++
        ((pyStrip s.text).replace "\n" "\\N")))

/-- The methods defined by `class SubtitleFormatter` in
`src/utils/subtitle_formats.py` (lines 4-117).  Attribute lookup on the
formatter object succeeds exactly for these names. -/
def SubtitleFormatter_methods : List String :=
  ["__init__", "format_timestamp_srt", "format_timestamp_vtt",
   "format_timestamp_ass", "to_srt", "to_vtt", "to_ass"]

/-- Per-segment translation of `TranscriptionService.translate_transcript`
(transcribe.py lines 231-248): on success a new dict with the same `start`
and `end` and the translated text; if the call raises, the original segment
is kept.  `translate txt target` is the opaque outcome of
`self.translator.translate(txt, dest=target)` (`none` models a raised
exception, `some t` a result whose `.text` is `t`). -/
def translateSeg (translate : String → String → Option String) (target : String)
    (s : Segment) : Segment :=
  match translate s.text target with
  | some t => { start := s.start, end_ := s.end_, text := t }
  | none => s

/-- `TranscriptionService.translate_transcript(segments, target_language)`
(transcribe.py lines 220-259).  The batching (`range(0, len(segments), 10)`,
slices of 10) is kept; the `time.sleep(0.1)` between batches has no effect on
the result.  The outer `except` returning the original list is unreachable
here because every per-segment failure is already handled. -/
def translate_transcript (translate : String → String → Option String)
    (segments : List Segment) (target : String) : List Segment :=
  if segments.isEmpty then []
  else (segments.take 10).map (translateSeg translate target) ++
    translate_transcript translate (segments.drop 10) target
termination_by segments.length
decreasing_by
  simp only [List.length_drop]
  cases segments with
  | nil => simp at *
  | cons a l => simp; omega

/-- `TranscriptionService.translate_segments` (transcribe.py lines 297-299),
the alias called from `app.py`. -/
def translate_segments (translate : String → String → Option String)
    (segments : List Segment) (target : String) : List Segment :=
  translate_transcript translate segments target

/-! ### File cleanup service (`src/utils/cleanup.py`)

A directory is modelled as the list of its entries, each a filename plus a
last-modified time in seconds (`datetime` values are totally ordered and are
compared only among themselves, so rational "seconds since epoch" is a
faithful carrier).  `os.remove` is modelled as always succeeding; the
per-file `except` branch only logs. -/

/-- A directory entry: filename and last-modified time. -/
structure FileEntry where
  name : String
  mtime : ℚ
deriving DecidableEq, Repr

/-- `FileCleanupService.max_age_hours` (cleanup.py line 10). -/
def max_age_hours : ℕ := 24

/-- `FileCleanupService._cleanup_directory` (cleanup.py lines 29-55): the
entries that remain after the sweep.  A file whose name starts with `'.'` is
skipped; otherwise it is removed iff its mtime is strictly before the
cutoff. -/
def cleanup_directory (cutoff : ℚ) (entries : List FileEntry) : List FileEntry :=
  entries.filter (fun f => pyStartsWith f.name "." || !(decide (f.mtime < cutoff)))

/-- `FileCleanupService.cleanup_old_files` (cleanup.py lines 12-27): sweeps
the upload directory and the output directory with
`cutoff = now - timedelta(hours=max_age_hours)`; returns the surviving
contents of both roots. -/
def cleanup_old_files (now : ℚ) (uploads outputs : List FileEntry) :
    List FileEntry × List FileEntry :=
  let cutoff := now - (max_age_hours : ℚ) * 3600
  (cleanup_directory cutoff uploads, cleanup_directory cutoff outputs)

/-- `FileCleanupService.cleanup_session_files(session_id)` (cleanup.py lines
57-75): in both roots, removes every file whose name contains `session_id`
as a substring; returns the surviving contents of both roots. -/
def cleanup_session_files (session_id : String) (uploads outputs : List FileEntry) :
    List FileEntry × List FileEntry :=
  (uploads.filter (fun f => !pyIn session_id f.name),
   outputs.filter (fun f => !pyIn session_id f.name))

/-! ### Background job orchestration (`src/app.py`, `process_background`)

`process_background` (app.py lines 165-274) is a closure running in a
daemon thread.  Its observable behaviour is the ordered list of SocketIO
events it emits.  The external collaborators are injected as parameters:

* `transcribeRes` — the outcome of `transcription_service.transcribe_file`
  (`Except.error e` models a raised exception with message `e`);
* `trFun` — the per-call outcome of `self.translator.translate`;
* `fmtFn` — the subtitle formatter dispatch `subtitle_formatter.to_format`
  (`Except.error e` models a raised exception);
* `writeRes` — the outcome of `open(path, 'w').write(...)` per path
  (`none` = success, `some e` = raised `OSError` with message `e`).

SocketIO `emit` and `logging` never raise in this model.  The write to the
Flask `session` dict at line 258 is modelled: it runs in a thread with no
request context and raises `RuntimeError` (see `session_ctx_error`), so the
`processing_complete` emit at lines 262-266 is unreachable. -/

/-- An entry of `output_files` (app.py lines 207-212 and 239-244). -/
structure OutputFile where
  filename : String
  path : String
  language : String
  format : String
deriving DecidableEq, Repr

/-- A SocketIO event emitted by `process_background`: `progress_update`
(with its `stage`, `progress` and `message` fields), `processing_complete`
(with the output file list), or `processing_error`. -/
inductive Event where
  | progress (stage : String) (percent : ℕ) (message : String)
  | complete (files : List OutputFile)
  | error (message : String)
deriving DecidableEq, Repr

/-- The mutable state of the generation loop: events emitted so far, the
`output_files` accumulator, `current_task`, and the Python variable
`progress` (last computed percentage). -/
structure PState where
  events : List Event
  files : List OutputFile
  current_task : ℕ
  progressVal : ℕ
deriving Repr

/-- The collaborators and request parameters captured by the
`process_background` closure. -/
structure Ctx where
  session_id : String
  trFun : String → String → Option String
  fmtFn : List Segment → String → Except String String
  writeRes : String → Option String
  target_languages : List String
  subtitle_formats : List String

/-- `LANGUAGE_NAMES` (app.py lines 49-64). -/
def LANGUAGE_NAMES : List (String × String) :=
  [("en", "English"), ("es", "Spanish"), ("fr", "French"), ("de", "German"),
   ("it", "Italian"), ("pt", "Portuguese"), ("ru", "Russian"), ("ja", "Japanese"),
   ("ko", "Korean"), ("zh", "Chinese"), ("ar", "Arabic"), ("hi", "Hindi"),
   ("tr", "Turkish"), ("pl", "Polish"), ("nl", "Dutch"), ("sv", "Swedish"),
   ("da", "Danish"), ("no", "Norwegian"), ("fi", "Finnish"), ("cs", "Czech"),
   ("hu", "Hungarian"), ("ro", "Romanian"), ("bg", "Bulgarian"), ("hr", "Croatian"),
   ("sk", "Slovak"), ("sl", "Slovenian"), ("et", "Estonian"), ("lv", "Latvian"),
   ("lt", "Lithuanian"), ("uk", "Ukrainian"), ("be", "Belarusian"), ("mk", "Macedonian"),
   ("sq", "Albanian"), ("sr", "Serbian"), ("bs", "Bosnian"), ("mt", "Maltese"),
   ("cy", "Welsh"), ("ga", "Irish"), ("is", "Icelandic"), ("eu", "Basque"),
   ("ca", "Catalan"), ("gl", "Galician"), ("af", "Afrikaans"), ("sw", "Swahili"),
   ("ms", "Malay"), ("id", "Indonesian"), ("tl", "Filipino"), ("vi", "Vietnamese"),
   ("th", "Thai"), ("my", "Myanmar"), ("km", "Khmer"), ("lo", "Lao"),
   ("ka", "Georgian"), ("am", "Amharic"), ("ne", "Nepali"), ("si", "Sinhala"),
   ("bn", "Bengali"), ("ur", "Urdu"), ("fa", "Persian"), ("he", "Hebrew"),
   ("yi", "Yiddish"), ("ml", "Malayalam"), ("ta", "Tamil"), ("te", "Telugu"),
   ("kn", "Kannada"), ("gu", "Gujarati"), ("pa", "Punjabi"), ("or", "Odia"),
   ("as", "Assamese"), ("sa", "Sanskrit")]

/-- `LANGUAGE_NAMES.get(lang_code, lang_code)`. -/
def langNameGet (code : String) : String := (LANGUAGE_NAMES.lookup code).getD code

/-- `int((current_task / total_tasks) * 100)` (app.py lines 215 and 250).
Both arguments are naturals, so the exact value is `⌊100 * c / t⌋`, i.e.
natural division.  (CPython computes this through binary floating point,
which can differ from the exact floor by one for values out of reach of the
small counts here; monotonicity in `c` and the values at `c = 0` and
`c = t` are identical.) -/
def progressPct (c t : ℕ) : ℕ := 100 * c / t

/-- One iteration of the inner `for lang_code in target_languages` loop
(app.py lines 223-255).  The `try` block emits the "Translating to …" event,
translates (which, by construction of `translate_transcript`, never raises),
formats, writes and records the artifact; a formatter or write failure is
caught by the inner `except` (line 246), which only logs.  The counter
update and the "Translated to …" emit (lines 249-255) sit outside the `try`
and always execute. -/
def langStep (ctx : Ctx) (segments : List Segment) (total : ℕ) (fmt : String)
    (st : PState) (lang_code : String) : PState :=
  let name := langNameGet lang_code
  let translated := translate_segments ctx.trFun segments lang_code
  let path := "outputs/" ++ (ctx.session_id ++ "_" ++ lang_code ++ "." ++ fmt)
  let newFiles : List OutputFile :=
    match ctx.fmtFn translated fmt with
    | .error _ => []
    | .ok _ =>
      match ctx.writeRes path with
      | some _ => []
      | none => [{ filename := name ++ "." ++ fmt, path := path,
                   language := lang_code, format := fmt }]
  let c := st.current_task + 1
  let p := progressPct c total
  { events := st.events ++
      [Event.progress "translation" st.progressVal ("Translating to " ++ name ++ "..."),
       Event.progress "translation" p ("Translated to " ++ name)],
    files := st.files ++ newFiles,
    current_task := c,
    progressVal := p }

/-- One iteration of the outer `for fmt in subtitle_formats` loop (app.py
lines 198-255).  The original-language serialization and write (lines
200-205) are *not* inside any local `try`: a failure there propagates to the
outer handler, modelled by `Except.error (message, state at failure)`. -/
def fmtStep (ctx : Ctx) (segments : List Segment) (total : ℕ)
    (st : PState) (fmt : String) : Except (String × PState) PState :=
  match ctx.fmtFn segments fmt with
  | .error e => .error (e, st)
  | .ok _ =>
    let path := "outputs/" ++ (ctx.session_id ++ "_original." ++ fmt)
    match ctx.writeRes path with
    | some e => .error (e, st)
    | none =>
      let c := st.current_task + 1
      let p := progressPct c total
      let st1 : PState :=
        { events := st.events ++
            [Event.progress "subtitle_generation" p
              ("Generated original " ++ strUpper fmt ++ " subtitle")],
          files := st.files ++
            [{ filename := "original." ++ fmt, path := path,
               language := "original", format := fmt }],
          current_task := c,
          progressVal := p }
      .ok (ctx.target_languages.foldl (langStep ctx segments total fmt) st1)

/-- `total_tasks` (app.py line 195). -/
def totalTasks (ctx : Ctx) : ℕ :=
  ctx.subtitle_formats.length * (1 + ctx.target_languages.length)

/-- The loop state after the three fixed emits of app.py lines 168-196:
the two transcription-stage events and the `subtitle_generation 0` event
have been sent, `output_files = []`, `current_task = 0`. -/
def initState : PState :=
  { events := [Event.progress "transcription" 0 "Starting transcription...",
      Event.progress "transcription" 100 "Transcription completed!",
      Event.progress "subtitle_generation" 0 "Generating subtitle files..."],
    files := [], current_task := 0, progressVal := 0 }

/-- The outcome of the `for fmt in subtitle_formats` loop (app.py lines
198-255) after a successful transcription: either the final loop state, or
the message and at-failure state of an exception that escaped to the outer
handler. -/
def generationResult (ctx : Ctx) (segments : List Segment) :
    Except (String × PState) PState :=
  ctx.subtitle_formats.foldlM (fmtStep ctx segments (totalTasks ctx)) initState

/-- The `output_files` accumulator at the end of the generation loop — the
artifacts whose disk writes succeeded — when the loop finishes without an
escaping exception. -/
def generationFiles (ctx : Ctx) (segments : List Segment) : Option (List OutputFile) :=
  match generationResult ctx segments with
  | Except.ok st => some st.files
  | Except.error _ => none

/-- `str(e)` of the `RuntimeError` raised by `session['output_files'] =
output_files` at app.py line 258: `process_background` runs in a plain
daemon thread with no Flask request context pushed (no
`copy_current_request_context`, no test context anywhere in the repository),
so touching the `session` proxy there raises
`RuntimeError: Working outside of request context.` deterministically.
Only the first line of the message is kept; no claim depends on its text. -/
def session_ctx_error : String := "Working outside of request context."

/-- `process_background` (app.py lines 165-274): the ordered list of emitted
SocketIO events.  On any exception the outer handler (lines 270-274) emits a
single `processing_error` carrying `'Processing failed: ' ++ str(e)`.  When
the generation loop finishes, line 258 (`session['output_files'] = ...`)
raises `RuntimeError` (see `session_ctx_error`) before the
`processing_complete` emit at lines 262-266 can run, so every run ends in
the error branch and `processing_complete` is never emitted. -/
def process_background (ctx : Ctx) (transcribeRes : Except String (List Segment)) :
    List Event :=
  match transcribeRes with
  | .error e => [Event.progress "transcription" 0 "Starting transcription...",
      Event.error ("Processing failed: " ++ e)]
  | .ok segments =>
    match generationResult ctx segments with
    | .error (e, stE) => stE.events ++ [Event.error ("Processing failed: " ++ e)]
    | .ok stF => stF.events ++ [Event.error ("Processing failed: " ++ session_ctx_error)]

/-- The `subtitle_formatter.to_format` actually reachable from
`process_background`: `SubtitleFormatter` defines no method named
`to_format` (see `SubtitleFormatter_methods`), so the attribute lookup at
app.py line 200 / 232 raises
`AttributeError: 'SubtitleFormatter' object has no attribute 'to_format'`. -/
def to_format_actual (_segments : List Segment) (_fmt : String) : Except String String :=
  .error "'SubtitleFormatter' object has no attribute 'to_format'"

/-- Modelled from the spec: `SubtitleFormatter.to_format(segments, format)`
is called by `process_background` but is defined nowhere in the repository.
Spec section 4.2 specifies the formatter as format-selectable
`render(segments, format) → text` dispatching on `{srt, vtt, ass}` to the
format-specific serializers defined above. -/
def to_format (segments : List Segment) (fmt : String) : Except String String :=
  if fmt = "srt" then .ok (to_srt segments)
  else if fmt = "vtt" then .ok (to_vtt segments)
  else if fmt = "ass" then .ok (to_ass segments)
  else .error ("Unknown subtitle format: " ++ fmt)

/-- The `progress` / `percentage` payloads of the progress events of a
trace, in emission order. -/
def progVals : List Event → List ℕ
  | [] => []
  | Event.progress _ p _ :: rest => p :: progVals rest
  | Event.complete _ :: rest => progVals rest
  | Event.error _ :: rest => progVals rest

/-! ### Helper lemmas -/

theorem translate_transcript_eq_map (tr : String → String → Option String)
    (target : String) (segments : List Segment) :
    translate_transcript tr segments target = segments.map (translateSeg tr target) := by
  have key : ∀ (n : ℕ) (l : List Segment), l.length = n →
      translate_transcript tr l target = l.map (translateSeg tr target) := by
    intro n
    induction n using Nat.strong_induction_on with
    | _ n ih =>
      intro l hn
      rw [translate_transcript]
      cases l with
      | nil => simp
      | cons s rest =>
        simp only [List.isEmpty_cons, if_false, Bool.false_eq_true]
        rw [ih ((s :: rest).drop 10).length
          (by rw [← hn]; simp [List.length_drop]; omega) _ rfl]
        rw [← List.map_append, List.take_append_drop]
  exact key segments.length segments rfl

theorem joinNL_cons_of_ne (a : String) {l : List String} (h : l ≠ []) :
    joinNL (a :: l) = a ++ "\n" ++ joinNL l := by
  cases l with
  | nil => exact absurd rfl h
  | cons b t => rfl

theorem joinNL_append {l1 l2 : List String} (h1 : l1 ≠ []) (h2 : l2 ≠ []) :
    joinNL (l1 ++ l2) = joinNL l1 ++ "\n" ++ joinNL l2 := by
  induction l1 with
  | nil => exact absurd rfl h1
  | cons a t ih =>
    cases t with
    | nil => simp [joinNL_cons_of_ne a h2, joinNL]
    | cons b t2 =>
      rw [List.cons_append, joinNL_cons_of_ne a (l := (b :: t2) ++ l2) (by simp),
        joinNL_cons_of_ne a (l := b :: t2) (by simp), ih (by simp)]
      simp [String.append_assoc]

/-- The value of the last element of `l`, or `v` when `l` is empty. -/
def lastD : ℕ → List ℕ → ℕ
  | v, [] => v
  | _, x :: xs => lastD x xs

/-- `l` is non-decreasing and its first element (if any) is at least `v`. -/
def MonoFrom : ℕ → List ℕ → Prop
  | _, [] => True
  | v, x :: xs => v ≤ x ∧ MonoFrom x xs

theorem lastD_append (v : ℕ) (l1 l2 : List ℕ) :
    lastD v (l1 ++ l2) = lastD (lastD v l1) l2 := by
  induction l1 generalizing v with
  | nil => rfl
  | cons x xs ih => simp [lastD, ih]

theorem monoFrom_append {v : ℕ} {l1 l2 : List ℕ}
    (h1 : MonoFrom v l1) (h2 : MonoFrom (lastD v l1) l2) :
    MonoFrom v (l1 ++ l2) := by
  induction l1 generalizing v with
  | nil => exact h2
  | cons x xs ih => exact ⟨h1.1, ih h1.2 h2⟩

theorem monoFrom_getLast? {v : ℕ} {l : List ℕ} (h : l ≠ []) :
    l.getLast? = some (lastD v l) := by
  induction l generalizing v with
  | nil => exact absurd rfl h
  | cons x xs ih =>
    cases xs with
    | nil => rfl
    | cons y ys =>
      rw [List.getLast?_cons_cons, ih (v := x) (by simp)]
      rfl

theorem monoFrom_chain' : ∀ {v : ℕ} {l : List ℕ}, MonoFrom v l →
    List.Chain' (· ≤ ·) l := by
  intro v l
  induction l generalizing v with
  | nil => intro _; exact List.chain'_nil
  | cons x xs ih =>
    intro h
    cases xs with
    | nil => exact List.chain'_singleton x
    | cons y ys => exact List.chain'_cons.mpr ⟨h.2.1, ih h.2⟩

theorem progVals_append (l1 l2 : List Event) :
    progVals (l1 ++ l2) = progVals l1 ++ progVals l2 := by
  induction l1 with
  | nil => rfl
  | cons e t ih => cases e <;> simp [progVals, ih]

theorem progressPct_mono {c c' : ℕ} (t : ℕ) (h : c ≤ c') :
    progressPct c t ≤ progressPct c' t :=
  Nat.div_le_div_right (Nat.mul_le_mul_left _ h)

theorem progressPct_zero (t : ℕ) : progressPct 0 t = 0 := by
  simp [progressPct]

theorem progressPct_total {t : ℕ} (h : 0 < t) : progressPct t t = 100 :=
  Nat.mul_div_cancel _ h

theorem pymod_nonneg (a : ℚ) {b : ℚ} (hb : 0 < b) : 0 ≤ pymod a b := by
  have h1 : (⌊a / b⌋ : ℚ) ≤ a / b := Int.floor_le (a / b)
  have h2 : b * (⌊a / b⌋ : ℚ) ≤ b * (a / b) :=
    mul_le_mul_of_nonneg_left h1 (le_of_lt hb)
  have h3 : b * (a / b) = a := by
    rw [mul_comm]; exact div_mul_cancel₀ a (ne_of_gt hb)
  unfold pymod
  linarith

theorem pymod_lt (a : ℚ) {b : ℚ} (hb : 0 < b) : pymod a b < b := by
  have h1 : a / b < (⌊a / b⌋ : ℚ) + 1 := Int.lt_floor_add_one (a / b)
  have h2 : b * (a / b) < b * ((⌊a / b⌋ : ℚ) + 1) :=
    (mul_lt_mul_left hb).mpr h1
  have h3 : b * (a / b) = a := by
    rw [mul_comm]; exact div_mul_cancel₀ a (ne_of_gt hb)
  unfold pymod
  nlinarith

theorem intPad_of_nonneg (w : ℕ) {n : ℤ} (h : 0 ≤ n) :
    intPad w n = padNat w n.toNat := by
  simp [intPad, not_lt.mpr h]

theorem padNat_length_ge (w n : ℕ) : w ≤ (padNat w n).length := by
  unfold padNat
  by_cases h : (Nat.repr n).length < w
  · simp only [h, if_true]
    rw [String.length_append]
    have : (String.mk (List.replicate (w - (Nat.repr n).length) '0')).length
        = w - (Nat.repr n).length := by
      show (List.replicate (w - (Nat.repr n).length) '0').length = _
      exact List.length_replicate _ _
    omega
  · simp only [h, if_false]
    omega

theorem padNat_two_length : ∀ n, n < 100 → (padNat 2 n).length = 2 := by decide

theorem padNat_three_length : ∀ n, n < 1000 → (padNat 3 n).length = 3 := by decide

/-- A single SRT block as the spec describes it: `{1-based index}\n{start}
--> {end}\n{text}\n`. -/
def srtBlockSpec (i : ℕ) (s : Segment) : String :=
  Nat.repr i ++ "\n" ++ format_timestamp_srt s.start ++ " --> " ++
    format_timestamp_srt s.end_ ++ "\n" ++ pyStrip s.text ++ "\n"

/-- SRT output as the spec describes it: the blocks, in input order with
1-based indices, separated by a blank line (one extra newline between the
newline-terminated blocks). -/
def to_srt_spec (segments : List Segment) : String :=
  joinNL ((List.enumFrom 1 segments).map (fun p => srtBlockSpec p.1 p.2))

theorem to_srt_aux : ∀ (n : ℕ) (segs : List Segment),
    joinNL ((List.enumFrom n segs).map (fun p => srtBlock p.1 p.2)).flatten =
    joinNL ((List.enumFrom n segs).map (fun p => srtBlockSpec p.1 p.2)) := by
  intro n segs
  induction segs generalizing n with
  | nil => rfl
  | cons s rest ih =>
    cases rest with
    | nil =>
      simp [List.enumFrom, srtBlock, srtBlockSpec, joinNL, String.append_assoc]
    | cons r t =>
      have hne1 : ((List.enumFrom (n + 1) (r :: t)).map
          (fun p => srtBlock p.1 p.2)).flatten ≠ [] := by
        simp [List.enumFrom, srtBlock]
      calc joinNL ((List.enumFrom n (s :: r :: t)).map (fun p => srtBlock p.1 p.2)).flatten
          = joinNL (srtBlock n s ++ ((List.enumFrom (n + 1) (r :: t)).map
              (fun p => srtBlock p.1 p.2)).flatten) := by
            simp [List.enumFrom]
        _ = joinNL (srtBlock n s) ++ "\n" ++
              joinNL ((List.enumFrom (n + 1) (r :: t)).map
                (fun p => srtBlock p.1 p.2)).flatten := by
            exact joinNL_append (by simp [srtBlock]) hne1
        _ = srtBlockSpec n s ++ "\n" ++
              joinNL ((List.enumFrom (n + 1) (r :: t)).map
                (fun p => srtBlockSpec p.1 p.2)) := by
            rw [ih]
            simp [srtBlock, srtBlockSpec, joinNL, String.append_assoc]
        _ = joinNL ((List.enumFrom n (s :: r :: t)).map (fun p => srtBlockSpec p.1 p.2)) := by
            simp only [List.enumFrom, List.map_cons]
            rfl

theorem ts_srt_0 : format_timestamp_srt 0 = "00:00:00,000" := by
  unfold format_timestamp_srt pymod; norm_num; decide

theorem ts_srt_15 : format_timestamp_srt (3 / 2) = "00:00:01,500" := by
  unfold format_timestamp_srt pymod; norm_num; decide

theorem ts_srt_3 : format_timestamp_srt 3 = "00:00:03,000" := by
  unfold format_timestamp_srt pymod; norm_num; decide

theorem int_toString_of_nonneg : ∀ {n : ℤ}, 0 ≤ n → toString n = Nat.repr n.toNat := by
  intro n h
  cases n with
  | ofNat m => rfl
  | negSucc m => exact absurd h (by simp)

/-! ### Claims -/

/-- C6 counterexample: on the empty segment list `to_vtt` produces the
string `"WEBVTT\n"` — the header line and one newline — not the claimed
`"WEBVTT\n\n"`, because `'\n'.join(["WEBVTT", ""])` puts no newline after
the final (empty) element. -/
theorem to_vtt_nil_counterexample :
    to_vtt [] = "WEBVTT\n" ∧ to_vtt [] ≠ "WEBVTT\n\n" := by
  constructor
  · rfl
  · decide

/-- C6 (amended): rendering the empty segment list in VTT format yields
exactly `"WEBVTT\n"`: the literal `WEBVTT` header line followed by a single
newline (the trailing blank line carries no second newline). -/
theorem to_vtt_nil : to_vtt [] = "WEBVTT\n" := rfl

/-- C2: `translate_transcript` returns a list of the same length as its
input in which the element at each position keeps the input's `start` and
`end`, and keeps the input text whenever the per-segment translation call
fails — for every translation-outcome function, including the one where
every call fails. -/
theorem translate_transcript_preserves (tr : String → String → Option String)
    (target : String) (segments : List Segment) :
    (translate_transcript tr segments target).length = segments.length ∧
    List.Forall₂ (fun outSeg inSeg =>
        outSeg.start = inSeg.start ∧ outSeg.end_ = inSeg.end_ ∧
        (tr inSeg.text target = none → outSeg = inSeg))
      (translate_transcript tr segments target) segments := by
  rw [translate_transcript_eq_map]
  refine ⟨List.length_map _ _, ?_⟩
  induction segments with
  | nil => exact List.Forall₂.nil
  | cons s rest ih =>
    refine List.Forall₂.cons ?_ ih
    unfold translateSeg
    cases h : tr s.text target with
    | none => simp [h]
    | some t => simp [h]

/-- C2 witness: a two-segment list translated with an always-failing
translator keeps its length, its timings, and its texts. -/
theorem translate_transcript_preserves_witness :
    (translate_transcript (fun _ _ => none) [⟨0, 1, "a"⟩, ⟨1, 2, "b"⟩] "es").length
      = ([⟨0, 1, "a"⟩, ⟨1, 2, "b"⟩] : List Segment).length ∧
    List.Forall₂ (fun outSeg inSeg =>
        outSeg.start = inSeg.start ∧ outSeg.end_ = inSeg.end_ ∧
        ((fun (_ : String) (_ : String) => (none : Option String)) inSeg.text "es" = none →
          outSeg = inSeg))
      (translate_transcript (fun _ _ => none) [⟨0, 1, "a"⟩, ⟨1, 2, "b"⟩] "es")
      [⟨0, 1, "a"⟩, ⟨1, 2, "b"⟩] :=
  translate_transcript_preserves (fun _ _ => none) "es" [⟨0, 1, "a"⟩, ⟨1, 2, "b"⟩]

/-- C7: `to_srt` produces exactly the spec's block structure — one block per
input segment in input order, each block `{1-based input position}\n{start}
--> {end}\n{trimmed text}\n`, blocks separated by a blank line — and on
the spec's example input it produces exactly the spec's example output. -/
theorem to_srt_blocks (segments : List Segment) :
    to_srt segments = to_srt_spec segments ∧
    to_srt [⟨0, 3 / 2, "Hello"⟩, ⟨3 / 2, 3, "World"⟩] =
      "1\n00:00:00,000 --> 00:00:01,500\nHello\n\n2\n00:00:01,500 --> 00:00:03,000\nWorld\n" := by
  constructor
  · exact to_srt_aux 1 segments
  · rw [to_srt]
    simp only [List.enumFrom, List.map_cons, List.map_nil, List.flatten, srtBlock]
    rw [ts_srt_0, ts_srt_15, ts_srt_3]
    decide

/-- C8: for every timestamp value t ≥ 0, `format_timestamp_srt t` has the
form `HH:MM:SS,mmm` — comma separator, exactly-3-digit milliseconds, minute
and second fields of exactly 2 digits, hour field zero-padded to at least 2
digits — and `format_timestamp_ass t` has the form `H:MM:SS.cc` — dot
separator, exactly-2-digit centiseconds, and an unpadded (plain decimal)
hour field. -/
theorem format_timestamp_shapes (t : ℚ) (ht : 0 ≤ t) :
    (∃ h m s ms : ℕ, m < 60 ∧ s < 60 ∧ ms < 1000 ∧
      format_timestamp_srt t =
        padNat 2 h ++ ":" ++ padNat 2 m ++ ":" ++ padNat 2 s ++ "," ++ padNat 3 ms ∧
      2 ≤ (padNat 2 h).length ∧ (padNat 2 m).length = 2 ∧
      (padNat 2 s).length = 2 ∧ (padNat 3 ms).length = 3) ∧
    (∃ h m s c : ℕ, m < 60 ∧ s < 60 ∧ c < 100 ∧
      format_timestamp_ass t =
        Nat.repr h ++ ":" ++ padNat 2 m ++ ":" ++ padNat 2 s ++ "." ++ padNat 2 c ∧
      (padNat 2 m).length = 2 ∧ (padNat 2 s).length = 2 ∧ (padNat 2 c).length = 2) := by
  have h3600 : (0:ℚ) < 3600 := by norm_num
  have h60 : (0:ℚ) < 60 := by norm_num
  have h1q : (0:ℚ) < 1 := by norm_num
  have hh : (0:ℤ) ≤ ⌊t / 3600⌋ := Int.floor_nonneg.mpr (by positivity)
  have hm0 : (0:ℤ) ≤ ⌊pymod t 3600 / 60⌋ :=
    Int.floor_nonneg.mpr (div_nonneg (pymod_nonneg t h3600) (by norm_num))
  have hm1 : ⌊pymod t 3600 / 60⌋ < 60 := by
    apply Int.floor_lt.mpr
    have := pymod_lt t h3600
    push_cast
    rw [div_lt_iff₀ h60]
    linarith
  have hs0 : (0:ℤ) ≤ ⌊pymod t 60⌋ := Int.floor_nonneg.mpr (pymod_nonneg t h60)
  have hs1 : ⌊pymod t 60⌋ < 60 := by
    apply Int.floor_lt.mpr
    push_cast
    exact pymod_lt t h60
  have hfr0 : (0:ℚ) ≤ pymod (pymod t 60) 1 := pymod_nonneg _ h1q
  have hfr1 : pymod (pymod t 60) 1 < 1 := pymod_lt _ h1q
  have hms0 : (0:ℤ) ≤ ⌊pymod (pymod t 60) 1 * 1000⌋ :=
    Int.floor_nonneg.mpr (by positivity)
  have hms1 : ⌊pymod (pymod t 60) 1 * 1000⌋ < 1000 := by
    apply Int.floor_lt.mpr
    push_cast
    nlinarith
  have hcs0 : (0:ℤ) ≤ ⌊pymod (pymod t 60) 1 * 100⌋ :=
    Int.floor_nonneg.mpr (by positivity)
  have hcs1 : ⌊pymod (pymod t 60) 1 * 100⌋ < 100 := by
    apply Int.floor_lt.mpr
    push_cast
    nlinarith
  constructor
  · refine ⟨⌊t / 3600⌋.toNat, ⌊pymod t 3600 / 60⌋.toNat, ⌊pymod t 60⌋.toNat,
      ⌊pymod (pymod t 60) 1 * 1000⌋.toNat, by omega, by omega, by omega, ?_, ?_, ?_, ?_, ?_⟩
    · unfold format_timestamp_srt
      dsimp only
      rw [intPad_of_nonneg 2 hh, intPad_of_nonneg 2 hm0, intPad_of_nonneg 2 hs0,
        intPad_of_nonneg 3 hms0]
    · exact padNat_length_ge 2 _
    · exact padNat_two_length _ (by omega)
    · exact padNat_two_length _ (by omega)
    · exact padNat_three_length _ (by omega)
  · refine ⟨⌊t / 3600⌋.toNat, ⌊pymod t 3600 / 60⌋.toNat, ⌊pymod t 60⌋.toNat,
      ⌊pymod (pymod t 60) 1 * 100⌋.toNat, by omega, by omega, by omega, ?_, ?_, ?_, ?_⟩
    · unfold format_timestamp_ass
      dsimp only
      rw [int_toString_of_nonneg hh, intPad_of_nonneg 2 hm0, intPad_of_nonneg 2 hs0,
        intPad_of_nonneg 2 hcs0]
    · exact padNat_two_length _ (by omega)
    · exact padNat_two_length _ (by omega)
    · exact padNat_two_length _ (by omega)

/-- C8 witness: the timestamp-shape theorem instantiated at the concrete
timestamp 3661.5 seconds. -/
theorem format_timestamp_shapes_witness :
    (0:ℚ) ≤ 3661.5 ∧
    ((∃ h m s ms : ℕ, m < 60 ∧ s < 60 ∧ ms < 1000 ∧
      format_timestamp_srt 3661.5 =
        padNat 2 h ++ ":" ++ padNat 2 m ++ ":" ++ padNat 2 s ++ "," ++ padNat 3 ms ∧
      2 ≤ (padNat 2 h).length ∧ (padNat 2 m).length = 2 ∧
      (padNat 2 s).length = 2 ∧ (padNat 3 ms).length = 3) ∧
    (∃ h m s c : ℕ, m < 60 ∧ s < 60 ∧ c < 100 ∧
      format_timestamp_ass 3661.5 =
        Nat.repr h ++ ":" ++ padNat 2 m ++ ":" ++ padNat 2 s ++ "." ++ padNat 2 c ∧
      (padNat 2 m).length = 2 ∧ (padNat 2 s).length = 2 ∧ (padNat 2 c).length = 2)) :=
  ⟨by norm_num, format_timestamp_shapes 3661.5 (by norm_num)⟩

theorem cleanup_directory_mem (cutoff : ℚ) (l : List FileEntry) (f : FileEntry) :
    f ∈ cleanup_directory cutoff l ↔
      f ∈ l ∧ (pyStartsWith f.name "." = true ∨ ¬ f.mtime < cutoff) := by
  simp only [cleanup_directory, List.mem_filter, Bool.or_eq_true,
    Bool.not_eq_true', decide_eq_false_iff_not]

/-- C9 counterexample: the hidden file `.gitkeep`, last modified at time 0,
is older than the 24-hour TTL at sweep time 100000 seconds, yet a sweep
retains it, because `_cleanup_directory` skips every filename that starts
with `'.'`. -/
theorem cleanup_old_files_counterexample :
    (cleanup_old_files 100000 [⟨".gitkeep", 0⟩] []).1 = [⟨".gitkeep", 0⟩] ∧
    (0 : ℚ) < 100000 - (max_age_hours : ℚ) * 3600 := by
  constructor
  · rfl
  · norm_num [max_age_hours]

/-- C9 (amended): a sweep at time `now` deletes every file of either root
whose name does not start with `'.'` and whose last-modified time is older
than the 24-hour TTL, and retains every file whose last-modified time is
within the TTL; files whose name starts with `'.'` (hidden files such as
`.gitkeep`) are always retained. -/
theorem cleanup_old_files_ttl (now : ℚ) (uploads outputs : List FileEntry)
    (f : FileEntry) :
    (f ∈ uploads → pyStartsWith f.name "." = false →
      f.mtime < now - (max_age_hours : ℚ) * 3600 →
      f ∉ (cleanup_old_files now uploads outputs).1) ∧
    (f ∈ uploads → now - (max_age_hours : ℚ) * 3600 ≤ f.mtime →
      f ∈ (cleanup_old_files now uploads outputs).1) ∧
    (f ∈ outputs → pyStartsWith f.name "." = false →
      f.mtime < now - (max_age_hours : ℚ) * 3600 →
      f ∉ (cleanup_old_files now uploads outputs).2) ∧
    (f ∈ outputs → now - (max_age_hours : ℚ) * 3600 ≤ f.mtime →
      f ∈ (cleanup_old_files now uploads outputs).2) := by
  unfold cleanup_old_files
  dsimp only
  refine ⟨?_, ?_, ?_, ?_⟩
  · intro hmem hdot hold hin
    rcases (cleanup_directory_mem _ _ _).mp hin with ⟨_, hkeep | hkeep⟩
    · rw [hdot] at hkeep; exact Bool.false_ne_true hkeep
    · exact hkeep hold
  · intro hmem hnew
    exact (cleanup_directory_mem _ _ _).mpr ⟨hmem, Or.inr (not_lt.mpr hnew)⟩
  · intro hmem hdot hold hin
    rcases (cleanup_directory_mem _ _ _).mp hin with ⟨_, hkeep | hkeep⟩
    · rw [hdot] at hkeep; exact Bool.false_ne_true hkeep
    · exact hkeep hold
  · intro hmem hnew
    exact (cleanup_directory_mem _ _ _).mpr ⟨hmem, Or.inr (not_lt.mpr hnew)⟩

/-- C9 witness: at sweep time 200000 seconds, the non-hidden file
`a.srt` with last-modified time 0 (older than the TTL) is deleted from the
upload root. -/
theorem cleanup_old_files_ttl_witness :
    (⟨"a.srt", 0⟩ : FileEntry) ∈ ([⟨"a.srt", 0⟩] : List FileEntry) ∧
    pyStartsWith (FileEntry.name ⟨"a.srt", 0⟩) "." = false ∧
    FileEntry.mtime ⟨"a.srt", 0⟩ < 200000 - (max_age_hours : ℚ) * 3600 ∧
    (⟨"a.srt", 0⟩ : FileEntry) ∉ (cleanup_old_files 200000 [⟨"a.srt", 0⟩] []).1 :=
  ⟨List.mem_cons_self _ _, rfl, by norm_num [max_age_hours],
    (cleanup_old_files_ttl 200000 [⟨"a.srt", 0⟩] [] ⟨"a.srt", 0⟩).1
      (List.mem_cons_self _ _) rfl (by norm_num [max_age_hours])⟩

/-- C10: `cleanup_session_files id` retains, in each of the two roots,
exactly the files whose name does not contain `id` as a substring —
independent of the files' age — and introduces no file that was not
already there. -/
theorem cleanup_session_files_exact (id : String) (uploads outputs : List FileEntry)
    (f : FileEntry) :
    (f ∈ uploads →
      (f ∈ (cleanup_session_files id uploads outputs).1 ↔ pyIn id f.name = false)) ∧
    (f ∈ outputs →
      (f ∈ (cleanup_session_files id uploads outputs).2 ↔ pyIn id f.name = false)) ∧
    (∀ g ∈ (cleanup_session_files id uploads outputs).1, g ∈ uploads) ∧
    (∀ g ∈ (cleanup_session_files id uploads outputs).2, g ∈ outputs) := by
  unfold cleanup_session_files
  dsimp only
  refine ⟨?_, ?_, ?_, ?_⟩
  · intro hmem
    simp [List.mem_filter, hmem]
  · intro hmem
    simp [List.mem_filter, hmem]
  · intro g hg
    exact List.mem_of_mem_filter hg
  · intro g hg
    exact List.mem_of_mem_filter hg

/-- C10 witness: with session id `abc`, the file `xabcy.srt` (name contains
`abc`) is removed from the upload root regardless of its age. -/
theorem cleanup_session_files_exact_witness :
    (⟨"xabcy.srt", 0⟩ : FileEntry) ∈ ([⟨"xabcy.srt", 0⟩] : List FileEntry) ∧
    ((⟨"xabcy.srt", 0⟩ : FileEntry) ∈
        (cleanup_session_files "abc" [⟨"xabcy.srt", 0⟩] []).1 ↔
      pyIn "abc" (FileEntry.name ⟨"xabcy.srt", 0⟩) = false) :=
  ⟨List.mem_cons_self _ _,
    (cleanup_session_files_exact "abc" [⟨"xabcy.srt", 0⟩] [] ⟨"xabcy.srt", 0⟩).1
      (List.mem_cons_self _ _)⟩

theorem langFold_spec (ctx : Ctx) (segments : List Segment) (total : ℕ) (fmt : String) :
    ∀ (langs : List String) (st : PState),
      st.progressVal = progressPct st.current_task total →
      ∃ E F,
        (langs.foldl (langStep ctx segments total fmt) st).events = st.events ++ E ∧
        (langs.foldl (langStep ctx segments total fmt) st).files = st.files ++ F ∧
        (langs.foldl (langStep ctx segments total fmt) st).current_task
          = st.current_task + langs.length ∧
        (langs.foldl (langStep ctx segments total fmt) st).progressVal
          = progressPct (st.current_task + langs.length) total ∧
        MonoFrom st.progressVal (progVals E) ∧
        lastD st.progressVal (progVals E)
          = (langs.foldl (langStep ctx segments total fmt) st).progressVal ∧
        (∀ f ∈ F, ctx.writeRes f.path = none ∧ f.format = fmt ∧ f.language ∈ langs) ∧
        (∀ lang ∈ langs,
          (∃ out, ctx.fmtFn (translate_segments ctx.trFun segments lang) fmt
            = Except.ok out) →
          ctx.writeRes ("outputs/" ++ (ctx.session_id ++ "_" ++ lang ++ "." ++ fmt))
            = none →
          ∃ f ∈ F, f.language = lang ∧ f.format = fmt) := by
  intro langs
  induction langs with
  | nil =>
    intro st hinv
    exact ⟨[], [], by simp, by simp, by simp, by simp [hinv], trivial, rfl, by simp, by simp⟩
  | cons lang rest ih =>
    intro st hinv
    have h1e : (langStep ctx segments total fmt st lang).events = st.events ++
        [Event.progress "translation" st.progressVal
          ("Translating to " ++ langNameGet lang ++ "..."),
         Event.progress "translation" (progressPct (st.current_task + 1) total)
          ("Translated to " ++ langNameGet lang)] := rfl
    have h1c : (langStep ctx segments total fmt st lang).current_task
        = st.current_task + 1 := rfl
    have h1p : (langStep ctx segments total fmt st lang).progressVal
        = progressPct (st.current_task + 1) total := rfl
    have hnf : ∃ nf : List OutputFile,
        (langStep ctx segments total fmt st lang).files = st.files ++ nf ∧
        (∀ f ∈ nf, ctx.writeRes f.path = none ∧ f.format = fmt ∧ f.language = lang) ∧
        ((∃ out, ctx.fmtFn (translate_segments ctx.trFun segments lang) fmt
            = Except.ok out) →
          ctx.writeRes ("outputs/" ++ (ctx.session_id ++ "_" ++ lang ++ "." ++ fmt))
            = none →
          ∃ f ∈ nf, f.language = lang ∧ f.format = fmt) := by
      rcases hfm : ctx.fmtFn (translate_segments ctx.trFun segments lang) fmt with e | out
      · refine ⟨[], ?_, by simp, ?_⟩
        · show _ = st.files ++ ([] : List OutputFile)
          simp [langStep, hfm]
        · rintro ⟨out, hout⟩ _
          simp at hout
      · rcases hwr : ctx.writeRes ("outputs/" ++ (ctx.session_id ++ "_" ++ lang ++ "." ++ fmt))
            with _ | e2
        · refine ⟨[⟨langNameGet lang ++ "." ++ fmt,
              "outputs/" ++ (ctx.session_id ++ "_" ++ lang ++ "." ++ fmt), lang, fmt⟩],
            ?_, ?_, ?_⟩
          · simp [langStep, hfm, hwr]
          · intro f hf
            rw [List.mem_singleton] at hf
            subst hf
            exact ⟨hwr, rfl, rfl⟩
          · intro _ _
            exact ⟨_, List.mem_singleton.mpr rfl, rfl, rfl⟩
        · refine ⟨[], ?_, by simp, ?_⟩
          · simp [langStep, hfm, hwr]
          · intro _ hw
            simp at hw
    obtain ⟨nf, h1f, hnfprop, hnfex⟩ := hnf
    obtain ⟨E2, F2, he, hfi, hc, hp, hm, hl, hF, hlang⟩ :=
      ih (langStep ctx segments total fmt st lang) (by rw [h1p, h1c])
    rw [List.foldl_cons]
    refine ⟨[Event.progress "translation" st.progressVal
        ("Translating to " ++ langNameGet lang ++ "..."),
       Event.progress "translation" (progressPct (st.current_task + 1) total)
        ("Translated to " ++ langNameGet lang)] ++ E2,
      nf ++ F2, ?_, ?_, ?_, ?_, ?_, ?_, ?_, ?_⟩
    · rw [he, h1e, List.append_assoc]
    · rw [hfi, h1f, List.append_assoc]
    · rw [hc, h1c]
      simp
      omega
    · rw [hp, h1c]
      have harith : st.current_task + 1 + rest.length
          = st.current_task + (rest.length + 1) := by omega
      rw [harith]
      simp
    · rw [progVals_append]
      show MonoFrom st.progressVal (st.progressVal ::
        progressPct (st.current_task + 1) total :: progVals E2)
      refine ⟨le_refl _, ?_, ?_⟩
      · rw [hinv]
        exact progressPct_mono total (Nat.le_succ _)
      · have := hm
        rw [h1p] at this
        exact this
    · rw [progVals_append]
      show lastD st.progressVal (st.progressVal ::
          progressPct (st.current_task + 1) total :: progVals E2) = _
      show lastD (progressPct (st.current_task + 1) total) (progVals E2) = _
      rw [← h1p]
      exact hl
    · intro f hf
      rcases List.mem_append.mp hf with h | h
      · obtain ⟨hw, hft, hlg⟩ := hnfprop f h
        exact ⟨hw, hft, by rw [hlg]; exact List.mem_cons_self _ _⟩
      · obtain ⟨hw, hft, hlg⟩ := hF f h
        exact ⟨hw, hft, List.mem_cons_of_mem _ hlg⟩
    · intro lang2 hlang2 hex hwr2
      rcases List.mem_cons.mp hlang2 with h | h
      · subst h
        obtain ⟨f, hfmem, hfl, hff⟩ := hnfex hex hwr2
        exact ⟨f, List.mem_append_left _ hfmem, hfl, hff⟩
      · obtain ⟨f, hfmem, hfl, hff⟩ := hlang lang2 h hex hwr2
        exact ⟨f, List.mem_append_right _ hfmem, hfl, hff⟩

theorem fmtFold_spec (ctx : Ctx) (segments : List Segment) (total : ℕ) :
    ∀ (formats : List String) (st : PState),
      st.progressVal = progressPct st.current_task total →
      (∀ f ∈ formats, ∀ segs2 : List Segment, ∃ out, ctx.fmtFn segs2 f = Except.ok out) →
      (∀ f ∈ formats,
        ctx.writeRes ("outputs/" ++ (ctx.session_id ++ "_original." ++ f)) = none) →
      ∃ st2 E F,
        formats.foldlM (fmtStep ctx segments total) st = Except.ok st2 ∧
        st2.events = st.events ++ E ∧
        st2.files = st.files ++ F ∧
        st2.current_task
          = st.current_task + formats.length * (1 + ctx.target_languages.length) ∧
        st2.progressVal = progressPct st2.current_task total ∧
        MonoFrom st.progressVal (progVals E) ∧
        lastD st.progressVal (progVals E) = st2.progressVal ∧
        (formats ≠ [] → progVals E ≠ []) ∧
        (∀ f ∈ F, ctx.writeRes f.path = none) ∧
        (∀ fmt ∈ formats,
          (⟨"original." ++ fmt, "outputs/" ++ (ctx.session_id ++ "_original." ++ fmt),
            "original", fmt⟩ : OutputFile) ∈ F) ∧
        (∀ fmt ∈ formats, ∀ lang ∈ ctx.target_languages,
          ctx.writeRes ("outputs/" ++ (ctx.session_id ++ "_" ++ lang ++ "." ++ fmt))
            = none →
          ∃ f ∈ F, f.language = lang ∧ f.format = fmt) := by
  intro formats
  induction formats with
  | nil =>
    intro st hinv _ _
    exact ⟨st, [], [], rfl, by simp, by simp, by simp, hinv,
      trivial, rfl, fun h => absurd rfl h, by simp, by simp, by simp⟩
  | cons fmt rest ih =>
    intro st hinv hfmt hw
    obtain ⟨out, hout⟩ := hfmt fmt (List.mem_cons_self _ _) segments
    have hwr : ctx.writeRes ("outputs/" ++ (ctx.session_id ++ "_original." ++ fmt))
        = none := hw fmt (List.mem_cons_self _ _)
    have hstep : fmtStep ctx segments total st fmt = Except.ok
        (ctx.target_languages.foldl (langStep ctx segments total fmt)
          { events := st.events ++
              [Event.progress "subtitle_generation"
                (progressPct (st.current_task + 1) total)
                ("Generated original " ++ strUpper fmt ++ " subtitle")],
            files := st.files ++
              [{ filename := "original." ++ fmt,
                 path := "outputs/" ++ (ctx.session_id ++ "_original." ++ fmt),
                 language := "original", format := fmt }],
            current_task := st.current_task + 1,
            progressVal := progressPct (st.current_task + 1) total }) := by
      simp [fmtStep, hout, hwr]
    obtain ⟨E1, F1, heL, hfL, hcL, hpL, hmL, hlL, hFL, hlangL⟩ :=
      langFold_spec ctx segments total fmt ctx.target_languages
        { events := st.events ++
            [Event.progress "subtitle_generation"
              (progressPct (st.current_task + 1) total)
              ("Generated original " ++ strUpper fmt ++ " subtitle")],
          files := st.files ++
            [{ filename := "original." ++ fmt,
               path := "outputs/" ++ (ctx.session_id ++ "_original." ++ fmt),
               language := "original", format := fmt }],
          current_task := st.current_task + 1,
          progressVal := progressPct (st.current_task + 1) total } rfl
    obtain ⟨st2, E2, F2, hfold2, he2, hf2, hc2, hp2, hm2, hl2, hne2, hF2, horig2, hlang2⟩ :=
      ih (ctx.target_languages.foldl (langStep ctx segments total fmt)
          { events := st.events ++
              [Event.progress "subtitle_generation"
                (progressPct (st.current_task + 1) total)
                ("Generated original " ++ strUpper fmt ++ " subtitle")],
            files := st.files ++
              [{ filename := "original." ++ fmt,
                 path := "outputs/" ++ (ctx.session_id ++ "_original." ++ fmt),
                 language := "original", format := fmt }],
            current_task := st.current_task + 1,
            progressVal := progressPct (st.current_task + 1) total })
        (by rw [hpL, hcL])
        (fun f hf => hfmt f (List.mem_cons_of_mem _ hf))
        (fun f hf => hw f (List.mem_cons_of_mem _ hf))
    refine ⟨st2,
      [Event.progress "subtitle_generation" (progressPct (st.current_task + 1) total)
        ("Generated original " ++ strUpper fmt ++ " subtitle")] ++ E1 ++ E2,
      [({ filename := "original." ++ fmt,
          path := "outputs/" ++ (ctx.session_id ++ "_original." ++ fmt),
          language := "original", format := fmt } : OutputFile)] ++ F1 ++ F2,
      ?_, ?_, ?_, ?_, hp2, ?_, ?_, ?_, ?_, ?_, ?_⟩
    · rw [List.foldlM_cons, hstep]
      exact hfold2
    · rw [he2, heL]
      simp [List.append_assoc]
    · rw [hf2, hfL]
      simp [List.append_assoc]
    · rw [hc2, hcL]
      simp only [List.length_cons]
      ring
    · rw [progVals_append, progVals_append]
      show MonoFrom st.progressVal
        (progressPct (st.current_task + 1) total :: (progVals E1 ++ progVals E2))
      refine ⟨by rw [hinv]; exact progressPct_mono total (Nat.le_succ _), ?_⟩
      show MonoFrom (progressPct (st.current_task + 1) total)
        (progVals E1 ++ progVals E2)
      refine monoFrom_append hmL ?_
      rw [hlL]
      exact hm2
    · rw [progVals_append, progVals_append]
      show lastD st.progressVal
        (progressPct (st.current_task + 1) total :: (progVals E1 ++ progVals E2)) = _
      show lastD (progressPct (st.current_task + 1) total)
        (progVals E1 ++ progVals E2) = _
      rw [lastD_append, hlL]
      exact hl2
    · intro _
      rw [progVals_append, progVals_append]
      simp [progVals]
    · intro f hf
      rcases List.mem_append.mp hf with hf | hf2m
      · rcases List.mem_append.mp hf with hf | hf1m
        · rw [List.mem_singleton] at hf
          subst hf
          exact hwr
        · exact (hFL f hf1m).1
      · exact hF2 f hf2m
    · intro fmt2 hfmt2
      rcases List.mem_cons.mp hfmt2 with h | h
      · subst h
        exact List.mem_append_left _ (List.mem_append_left _ (List.mem_singleton.mpr rfl))
      · exact List.mem_append_right _ (horig2 fmt2 h)
    · intro fmt2 hfmt2 lang hlang hwl
      rcases List.mem_cons.mp hfmt2 with h | h
      · subst h
        obtain ⟨f, hfm, hfl, hff⟩ := hlangL lang hlang
          (hfmt fmt2 (List.mem_cons_self _ _) _) hwl
        exact ⟨f, List.mem_append_left _ (List.mem_append_right _ hfm), hfl, hff⟩
      · obtain ⟨f, hfm, hfl, hff⟩ := hlang2 fmt2 h lang hlang hwl
        exact ⟨f, List.mem_append_right _ hfm, hfl, hff⟩

theorem known_format_ok (formats : List String)
    (hk : ∀ f ∈ formats, f = "srt" ∨ f = "vtt" ∨ f = "ass") :
    ∀ f ∈ formats, ∀ segs2 : List Segment, ∃ out, to_format segs2 f = Except.ok out := by
  intro f hf segs2
  rcases hk f hf with h | h | h <;> subst h
  · exact ⟨to_srt segs2, by simp [to_format]⟩
  · exact ⟨to_vtt segs2, by simp [to_format]⟩
  · exact ⟨to_ass segs2, by simp [to_format]⟩

/-- C1: `SubtitleFormatter` defines no method named `to_format`, so for
every session, target-language list, requested-format list, translator
behaviour, disk behaviour, and transcription outcome, `process_background`
ends in its error branch: its last event is a `processing_error` and no
`processing_complete` event is ever emitted.  Whenever at least one format
is requested and transcription succeeds, the escaping exception is exactly
the `AttributeError` raised by the first `to_format` call. -/
theorem process_background_always_errors (sid : String)
    (trFun : String → String → Option String) (writeRes : String → Option String)
    (langs formats : List String)
    (transcribeRes : Except String (List Segment)) :
    "to_format" ∉ SubtitleFormatter_methods ∧
    (∃ m, (process_background ⟨sid, trFun, to_format_actual, writeRes, langs, formats⟩
        transcribeRes).getLast? = some (Event.error m)) ∧
    (∀ fs, Event.complete fs ∉
      process_background ⟨sid, trFun, to_format_actual, writeRes, langs, formats⟩
        transcribeRes) ∧
    (∀ segments : List Segment, formats ≠ [] →
      (process_background ⟨sid, trFun, to_format_actual, writeRes, langs, formats⟩
          (Except.ok segments)).getLast?
        = some (Event.error
            ("Processing failed: 'SubtitleFormatter' object has no attribute 'to_format'"))) := by
  refine ⟨by decide, ?_, ?_, ?_⟩
  · cases transcribeRes with
    | error e => exact ⟨"Processing failed: " ++ e, rfl⟩
    | ok segments =>
      cases formats with
      | nil => exact ⟨"Processing failed: " ++ session_ctx_error, rfl⟩
      | cons fmt rest =>
        exact ⟨"Processing failed: 'SubtitleFormatter' object has no attribute 'to_format'",
          rfl⟩
  · intro fs h
    cases transcribeRes with
    | error e => simp [process_background] at h
    | ok segments =>
      cases formats with
      | nil =>
        have hrun : process_background
            ⟨sid, trFun, to_format_actual, writeRes, langs, []⟩ (Except.ok segments)
            = initState.events ++
              [Event.error ("Processing failed: " ++ session_ctx_error)] := rfl
        rw [hrun] at h
        simp [initState] at h
      | cons fmt rest =>
        have hrun : process_background
            ⟨sid, trFun, to_format_actual, writeRes, langs, fmt :: rest⟩
            (Except.ok segments)
            = initState.events ++
              [Event.error ("Processing failed: 'SubtitleFormatter' object has no attribute 'to_format'")] := rfl
        rw [hrun] at h
        simp [initState] at h
  · intro segments hne
    cases formats with
    | nil => exact absurd rfl hne
    | cons fmt rest => rfl

/-- C1 witness: a concrete job requesting the `srt` format ends with the
`processing_error` carrying the `to_format` `AttributeError`. -/
theorem process_background_always_errors_witness :
    (["srt"] : List String) ≠ [] ∧
    (process_background
        ⟨"s", fun _ _ => none, to_format_actual, fun _ => none, [], ["srt"]⟩
        (Except.ok [])).getLast?
      = some (Event.error
          ("Processing failed: 'SubtitleFormatter' object has no attribute 'to_format'")) :=
  ⟨by decide,
    (process_background_always_errors "s" (fun _ _ => none) (fun _ => none) [] ["srt"]
        (Except.ok [])).2.2.2 [] (by decide)⟩

/-- C3 counterexample: a job requesting one format emits the percentages
0, 100, 0 — `transcription` 0 and 100, then the reset to 0 when the
`subtitle_generation` stage starts — so a session's emitted percentage
sequence is not monotonically non-decreasing. -/
theorem progress_monotonic_counterexample :
    progVals (process_background
        ⟨"s", fun _ _ => none, to_format_actual, fun _ => none, [], ["srt"]⟩
        (Except.ok [])) = [0, 100, 0] ∧
    ¬ List.Chain' (· ≤ ·) ([0, 100, 0] : List ℕ) := by
  refine ⟨by decide, ?_⟩
  intro h
  have h100 : (100 : ℕ) ≤ 0 := (List.chain'_cons.mp (List.chain'_cons.mp h).2).1
  omega

/-- C3 (amended; `to_format` modelled from the spec in the generation
phase): the emitted percentage sequence resets to 0 whenever a new stage
starts, so it is not non-decreasing across a session.  Within the
translating/formatting phase the percentages — computed as
`⌊100·completed_units/total_units⌋` with
`total_units = |formats| × (1 + |target_languages|)` — are monotonically
non-decreasing and, with at least one requested format, reach exactly 100
at the final unit; the run then ends with a `processing_error` (the
`session` write at app.py line 258 raises outside a request context), never
with `processing_complete`. -/
theorem progress_monotonic_amended (sid : String)
    (trFun : String → String → Option String) (writeRes : String → Option String)
    (langs formats : List String) (segments : List Segment)
    (hk : ∀ f ∈ formats, f = "srt" ∨ f = "vtt" ∨ f = "ass")
    (hwall : ∀ p, writeRes p = none) :
    ∃ E,
      process_background ⟨sid, trFun, to_format, writeRes, langs, formats⟩
          (Except.ok segments) =
        [Event.progress "transcription" 0 "Starting transcription...",
         Event.progress "transcription" 100 "Transcription completed!",
         Event.progress "subtitle_generation" 0 "Generating subtitle files..."]
        ++ E ++ [Event.error ("Processing failed: " ++ session_ctx_error)] ∧
      List.Chain' (· ≤ ·) (progVals E) ∧
      (formats ≠ [] → (progVals E).getLast? = some 100) := by
  obtain ⟨st2, E, F, hfold, he, hf, hc, hp, hm, hl, hne, _, _, _⟩ :=
    fmtFold_spec ⟨sid, trFun, to_format, writeRes, langs, formats⟩ segments
      (formats.length * (1 + langs.length)) formats
      { events := [Event.progress "transcription" 0 "Starting transcription...",
          Event.progress "transcription" 100 "Transcription completed!",
          Event.progress "subtitle_generation" 0 "Generating subtitle files..."],
        files := [], current_task := 0, progressVal := 0 }
      (progressPct_zero _).symm
      (known_format_ok formats hk)
      (fun f _ => hwall _)
  have hgen : generationResult ⟨sid, trFun, to_format, writeRes, langs, formats⟩ segments
      = Except.ok st2 := hfold
  refine ⟨E, ?_, monoFrom_chain' hm, ?_⟩
  · show (match generationResult ⟨sid, trFun, to_format, writeRes, langs, formats⟩ segments with
      | Except.error (e, stE) => stE.events ++ [Event.error ("Processing failed: " ++ e)]
      | Except.ok stF => stF.events ++
          [Event.error ("Processing failed: " ++ session_ctx_error)]) = _
    rw [hgen]
    show st2.events ++ [Event.error ("Processing failed: " ++ session_ctx_error)] = _
    rw [he]
  · intro hfne
    have hpvne : progVals E ≠ [] := hne hfne
    rw [monoFrom_getLast? (v := (0 : ℕ)) hpvne, hl, hp, hc]
    have htot : 0 < formats.length * (1 + langs.length) := by
      cases formats with
      | nil => exact absurd rfl hfne
      | cons a l => simp [Nat.succ_mul]
    rw [Nat.zero_add, progressPct_total htot]

/-- C3 witness: the amended theorem at a concrete job (`srt`, one target
language, successful writes). -/
theorem progress_monotonic_amended_witness :
    (∀ f ∈ (["srt"] : List String), f = "srt" ∨ f = "vtt" ∨ f = "ass") ∧
    (∀ p : String, (fun (_ : String) => (none : Option String)) p = none) ∧
    (∃ E,
      process_background ⟨"s", fun _ _ => none, to_format, fun _ => none, ["es"], ["srt"]⟩
          (Except.ok []) =
        [Event.progress "transcription" 0 "Starting transcription...",
         Event.progress "transcription" 100 "Transcription completed!",
         Event.progress "subtitle_generation" 0 "Generating subtitle files..."]
        ++ E ++ [Event.error ("Processing failed: " ++ session_ctx_error)] ∧
      List.Chain' (· ≤ ·) (progVals E) ∧
      ((["srt"] : List String) ≠ [] → (progVals E).getLast? = some 100)) :=
  ⟨by decide, fun _ => rfl,
    progress_monotonic_amended "s" (fun _ _ => none) (fun _ => none) ["es"] ["srt"] []
      (by decide) (fun _ => rfl)⟩

/-- C4 counterexample (with `to_format` modelled from the spec): the
translator succeeds, the write of the translated artifact
`outputs/s_es.srt` raises (`disk full`), yet the inner `except` at app.py
line 246 swallows the failure: the loop continues (the `Translated to
Spanish` event with percentage 100 is still emitted after the failed
write), the disk error never surfaces as an event, and the terminal
`processing_error` is the unrelated session-write failure — the job does
not transition to a failed outcome because of the write failure. -/
theorem write_failure_swallowed_counterexample :
    (fun p => if p = "outputs/s_es.srt" then some "disk full" else none)
        "outputs/s_es.srt" = some "disk full" ∧
    process_background
        ⟨"s", fun t _ => some ("X" ++ t), to_format,
          fun p => if p = "outputs/s_es.srt" then some "disk full" else none,
          ["es"], ["srt"]⟩ (Except.ok []) =
      [Event.progress "transcription" 0 "Starting transcription...",
       Event.progress "transcription" 100 "Transcription completed!",
       Event.progress "subtitle_generation" 0 "Generating subtitle files...",
       Event.progress "subtitle_generation" 50 "Generated original SRT subtitle",
       Event.progress "translation" 50 "Translating to Spanish...",
       Event.progress "translation" 100 "Translated to Spanish",
       Event.error ("Processing failed: " ++ session_ctx_error)] ∧
    Event.error ("Processing failed: disk full") ∉ process_background
        ⟨"s", fun t _ => some ("X" ++ t), to_format,
          fun p => if p = "outputs/s_es.srt" then some "disk full" else none,
          ["es"], ["srt"]⟩ (Except.ok []) := by
  exact ⟨rfl, by decide, by decide⟩

/-- C4 (amended; `to_format` modelled from the spec): a failure writing a
*translated* artifact to disk is swallowed by the inner `except` of app.py
line 246 — whenever the original-language writes succeed, the generation
loop still runs to completion over all remaining languages and formats, the
failed artifact is simply omitted (the accumulator records only artifacts
whose write succeeded), and the run's terminal event is the
`processing_error` from the session write at line 258, identical to the
outcome when every write succeeds — not a failure caused by the disk
error.  Only a failure writing an original-language artifact escapes to the
outer handler. -/
theorem write_failure_swallowed_amended (sid : String)
    (trFun : String → String → Option String) (writeRes : String → Option String)
    (langs formats : List String) (segments : List Segment)
    (hk : ∀ f ∈ formats, f = "srt" ∨ f = "vtt" ∨ f = "ass")
    (hworig : ∀ f ∈ formats,
      writeRes ("outputs/" ++ (sid ++ "_original." ++ f)) = none) :
    ∃ stF,
      generationResult ⟨sid, trFun, to_format, writeRes, langs, formats⟩ segments
        = Except.ok stF ∧
      (∀ f ∈ stF.files, writeRes f.path = none) ∧
      process_background ⟨sid, trFun, to_format, writeRes, langs, formats⟩
          (Except.ok segments)
        = stF.events ++ [Event.error ("Processing failed: " ++ session_ctx_error)] := by
  obtain ⟨st2, E, F, hfold, he, hf, hc, hp, hm, hl, hne, hFw, _, _⟩ :=
    fmtFold_spec ⟨sid, trFun, to_format, writeRes, langs, formats⟩ segments
      (formats.length * (1 + langs.length)) formats
      { events := [Event.progress "transcription" 0 "Starting transcription...",
          Event.progress "transcription" 100 "Transcription completed!",
          Event.progress "subtitle_generation" 0 "Generating subtitle files..."],
        files := [], current_task := 0, progressVal := 0 }
      (progressPct_zero _).symm
      (known_format_ok formats hk)
      hworig
  have hgen : generationResult ⟨sid, trFun, to_format, writeRes, langs, formats⟩ segments
      = Except.ok st2 := hfold
  refine ⟨st2, hgen, ?_, ?_⟩
  · intro f hfmem
    rw [hf] at hfmem
    simp only [List.nil_append] at hfmem
    exact hFw f hfmem
  · show (match generationResult ⟨sid, trFun, to_format, writeRes, langs, formats⟩ segments with
      | Except.error (e, stE) => stE.events ++ [Event.error ("Processing failed: " ++ e)]
      | Except.ok stF => stF.events ++
          [Event.error ("Processing failed: " ++ session_ctx_error)]) = _
    rw [hgen]

/-- C4 witness: the amended theorem at a concrete job where the translated
write for `outputs/s_es.srt` fails but the original write succeeds. -/
theorem write_failure_swallowed_amended_witness :
    (∀ f ∈ (["srt"] : List String), f = "srt" ∨ f = "vtt" ∨ f = "ass") ∧
    (∀ f ∈ (["srt"] : List String),
      (fun p => if p = "outputs/s_es.srt" then some "disk full" else none)
        ("outputs/" ++ ("s" ++ "_original." ++ f)) = none) ∧
    (∃ stF,
      generationResult
          ⟨"s", fun t _ => some ("X" ++ t), to_format,
            fun p => if p = "outputs/s_es.srt" then some "disk full" else none,
            ["es"], ["srt"]⟩ [] = Except.ok stF ∧
      (∀ f ∈ stF.files,
        (fun p => if p = "outputs/s_es.srt" then some "disk full" else none)
          f.path = none) ∧
      process_background
          ⟨"s", fun t _ => some ("X" ++ t), to_format,
            fun p => if p = "outputs/s_es.srt" then some "disk full" else none,
            ["es"], ["srt"]⟩ (Except.ok [])
        = stF.events ++ [Event.error ("Processing failed: " ++ session_ctx_error)]) :=
  ⟨by decide, by decide,
    write_failure_swallowed_amended "s" (fun t _ => some ("X" ++ t))
      (fun p => if p = "outputs/s_es.srt" then some "disk full" else none)
      ["es"] ["srt"] [] (by decide) (by decide)⟩

/-- C5 counterexample (with `to_format` modelled from the spec): every
per-segment translation call fails, yet the Spanish artifact is *not*
omitted — `translate_segments` falls back to the original text and never
raises, so the artifact `outputs/s_es.srt` (with untranslated content) is
still written to disk and recorded in the loop's accumulator. -/
theorem translation_failure_artifact_not_omitted :
    (fun (_ : String) (_ : String) => (none : Option String)) "Hi" "es" = none ∧
    generationFiles
        ⟨"s", fun _ _ => none, to_format, fun _ => none, ["es"], ["srt"]⟩
        [⟨0, 1, "Hi"⟩]
      = some [⟨"original.srt", "outputs/s_original.srt", "original", "srt"⟩,
              ⟨"Spanish.srt", "outputs/s_es.srt", "es", "srt"⟩] := by
  exact ⟨rfl, by decide⟩

/-- C5 (amended; `to_format` modelled from the spec): a translation failure
for one target language does not abort the job — the generation loop runs
to completion for every translator behaviour, including one whose every
call fails — and, with all disk writes succeeding, the loop's artifact
accumulator contains the original-language variant for every requested
format *and* an artifact for every requested (format, target-language)
pair: a failed translation yields a fallback artifact with the original
text rather than an omitted artifact.  No run ends with
`processing_complete`, though: after the loop the session write at app.py
line 258 raises and the terminal event is a `processing_error`. -/
theorem translation_failure_degraded_amended (sid : String)
    (trFun : String → String → Option String) (writeRes : String → Option String)
    (langs formats : List String) (segments : List Segment)
    (hk : ∀ f ∈ formats, f = "srt" ∨ f = "vtt" ∨ f = "ass")
    (hwall : ∀ p, writeRes p = none) :
    ∃ stF,
      generationResult ⟨sid, trFun, to_format, writeRes, langs, formats⟩ segments
        = Except.ok stF ∧
      (∀ fmt ∈ formats,
        (⟨"original." ++ fmt, "outputs/" ++ (sid ++ "_original." ++ fmt),
          "original", fmt⟩ : OutputFile) ∈ stF.files) ∧
      (∀ fmt ∈ formats, ∀ lang ∈ langs,
        ∃ f ∈ stF.files, f.language = lang ∧ f.format = fmt) ∧
      process_background ⟨sid, trFun, to_format, writeRes, langs, formats⟩
          (Except.ok segments)
        = stF.events ++ [Event.error ("Processing failed: " ++ session_ctx_error)] := by
  obtain ⟨st2, E, F, hfold, he, hf, hc, hp, hm, hl, hne, hFw, horig, hlangs⟩ :=
    fmtFold_spec ⟨sid, trFun, to_format, writeRes, langs, formats⟩ segments
      (formats.length * (1 + langs.length)) formats
      { events := [Event.progress "transcription" 0 "Starting transcription...",
          Event.progress "transcription" 100 "Transcription completed!",
          Event.progress "subtitle_generation" 0 "Generating subtitle files..."],
        files := [], current_task := 0, progressVal := 0 }
      (progressPct_zero _).symm
      (known_format_ok formats hk)
      (fun f _ => hwall _)
  have hgen : generationResult ⟨sid, trFun, to_format, writeRes, langs, formats⟩ segments
      = Except.ok st2 := hfold
  refine ⟨st2, hgen, ?_, ?_, ?_⟩
  · intro fmt hfmt
    rw [hf]
    simp only [List.nil_append]
    exact horig fmt hfmt
  · intro fmt hfmt lang hlang
    obtain ⟨f, hfm, hfl, hff⟩ := hlangs fmt hfmt lang hlang (hwall _)
    refine ⟨f, ?_, hfl, hff⟩
    rw [hf]
    simpa using hfm
  · show (match generationResult ⟨sid, trFun, to_format, writeRes, langs, formats⟩ segments with
      | Except.error (e, stE) => stE.events ++ [Event.error ("Processing failed: " ++ e)]
      | Except.ok stF => stF.events ++
          [Event.error ("Processing failed: " ++ session_ctx_error)]) = _
    rw [hgen]

/-- C5 witness: the amended theorem at a concrete job with one format, one
target language, an always-failing translator, and successful writes. -/
theorem translation_failure_degraded_amended_witness :
    (∀ f ∈ (["srt"] : List String), f = "srt" ∨ f = "vtt" ∨ f = "ass") ∧
    (∀ p : String, (fun (_ : String) => (none : Option String)) p = none) ∧
    (∃ stF,
      generationResult
          ⟨"s", fun _ _ => none, to_format, fun _ => none, ["es"], ["srt"]⟩
          [⟨0, 1, "Hi"⟩] = Except.ok stF ∧
      (∀ fmt ∈ (["srt"] : List String),
        (⟨"original." ++ fmt, "outputs/" ++ ("s" ++ "_original." ++ fmt),
          "original", fmt⟩ : OutputFile) ∈ stF.files) ∧
      (∀ fmt ∈ (["srt"] : List String), ∀ lang ∈ (["es"] : List String),
        ∃ f ∈ stF.files, f.language = lang ∧ f.format = fmt) ∧
      process_background
          ⟨"s", fun _ _ => none, to_format, fun _ => none, ["es"], ["srt"]⟩
          (Except.ok [⟨0, 1, "Hi"⟩])
        = stF.events ++ [Event.error ("Processing failed: " ++ session_ctx_error)]) :=
  ⟨by decide, fun _ => rfl,
    translation_failure_degraded_amended "s" (fun _ _ => none) (fun _ => none)
      ["es"] ["srt"] [⟨0, 1, "Hi"⟩] (by decide) (fun _ => rfl)⟩


end VideoTrans
